import Mathlib

/-!
Verification of the urlshortener service (Go) against its design spec.

The definitions below are a shallow embedding of the repository's code:

* `GoError`/`errorsIs` model Go error values with pointer identity and the
  `errors.Is` unwrap chain (`fmt.Errorf` with `%w` is `GoError.wrapped`).
* `Link`, `Click`, `ClickEvent` mirror `internal/models`.
* `charset`, `GenerateShortCode` mirror the code generator in
  `internal/services/link_service.go`.
* `LinkStore` models the GORM-backed links table (unique index on
  `short_code`, `First` returning `gorm.ErrRecordNotFound` on a miss);
  `repoGetLinkByShortCode` / `repoCreateLink` mirror
  `internal/repository/link_repository.go`.
* `CreateLink` and `GetLinkByShortCode` mirror the service layer.
* `singleURLStatus`, `processURLs`, `multiStatusCode`, `urlsToProcess`
  mirror `internal/api/handlers.go`.
* `ClickQueue`/`trySend` model the buffered `ClickEventsChannel` and the
  non-blocking `select` send in `RedirectHandler`.
* `clickOfEvent`, `workerPersists`, `drainAll`, `workerStep` model
  `internal/workers` (`clickWorker` ranging over the channel).
* `shutdownSequence` models the post-signal statements of `RunServerCmd`.
* `checkOne`/`checkUrls` model the health monitor's per-link step
  (`internal/monitor`, `checkUrls`).
-/

/-- Go error values.  Each `errors.New` call site gets its own constructor or
a distinct `newError` tag, reflecting pointer identity of Go errors;
`wrapped` is `fmt.Errorf("...: %w", err)`. -/
inductive GoError where
  | gormErrRecordNotFound
  | errShortCodeNotFound
  | errShortCodeGenerationFailed
  | newError (msg : String)
  | wrapped (msg : String) (inner : GoError)
deriving DecidableEq, Repr

/-- Go's `errors.Is`: identity match, else follow the unwrap chain. -/
def errorsIs : GoError → GoError → Bool
  | e, target =>
    match e with
    | .wrapped m inner => (GoError.wrapped m inner == target) || errorsIs inner target
    | e' => e' == target

/-- `models.Link` (gorm: primary key `id`, unique `short_code`). -/
structure Link where
  id : Nat
  short_code : String
  long_url : String
  created_at : Nat
deriving DecidableEq, Repr

/-- `models.ClickEvent`: the transient value sent over the channel. -/
structure ClickEvent where
  link_id : Nat
  timestamp : Nat
  user_agent : String
  ip_address : String
deriving DecidableEq, Repr

/-- `models.Click`: the durable record written by a worker
(durable identity omitted: it is assigned by the store and unused here). -/
structure Click where
  link_id : Nat
  timestamp : Nat
  user_agent : String
  ip_address : String
deriving DecidableEq, Repr

/-- `charset` from `link_service.go`: 62 alphanumeric symbols. -/
def charset : String :=
  "abcdefghijklmnopqrstuvwxyzABCDEFGHIJKLMNOPQRSTUVWXYZ0123456789"

def charsetChars : List Char := charset.toList

theorem charsetChars_length : charsetChars.length = 62 := by decide

/-- `GenerateShortCode(length)`: draws one uniform index per position from
`crypto/rand` (`rand.Int(rand.Reader, 62)` guarantees a value in `[0, 62)`,
modelled as `Fin 62`) and maps it into `charset`. -/
def GenerateShortCode (draws : Nat → Fin 62) (length : Nat) : String :=
  String.mk ((List.range length).map fun i =>
    charsetChars.get (Fin.cast charsetChars_length.symm (draws i)))

theorem GenerateShortCode_length (draws : Nat → Fin 62) (length : Nat) :
    (GenerateShortCode draws length).length = length := by
  simp [GenerateShortCode, String.length]

theorem GenerateShortCode_mem_charset (draws : Nat → Fin 62) (length : Nat) :
    ∀ c ∈ (GenerateShortCode draws length).toList, c ∈ charsetChars := by
  intro c hc
  simp [GenerateShortCode, String.toList] at hc
  obtain ⟨i, _, rfl⟩ := hc
  exact List.getElem_mem _

/-- The GORM-backed links table: rows in insertion order plus the next
auto-increment primary key. -/
structure LinkStore where
  links : List Link
  nextId : Nat
deriving DecidableEq, Repr

/-- `GormLinkRepository.GetLinkByShortCode`: `First` on `short_code = ?`,
returning the raw `gorm.ErrRecordNotFound` on a miss (no wrapping). -/
def repoGetLinkByShortCode (s : LinkStore) (shortCode : String) :
    Except GoError Link :=
  match s.links.find? (fun l => l.short_code == shortCode) with
  | some l => .ok l
  | none => .error .gormErrRecordNotFound

/-- `GormLinkRepository.CreateLink`: `db.Create` assigns the primary key and
fails on the `short_code` unique index; the repository wraps the database
error as `failed to create link: %w`. -/
def repoCreateLink (s : LinkStore) (link : Link) :
    Except GoError (Link × LinkStore) :=
  if s.links.any (fun l => l.short_code == link.short_code) then
    .error (.wrapped "failed to create link"
      (.newError "UNIQUE constraint failed: links.short_code"))
  else
    let stored := { link with id := s.nextId }
    .ok (stored, { links := s.links ++ [stored], nextId := s.nextId + 1 })

/-- `maxRetries` in `LinkService.CreateLink`. -/
def maxRetries : Nat := 5

/-- The retry loop of `LinkService.CreateLink`: attempt `i` generates
`gen i` and checks existence via the repository.  The Go loop leaves
`shortCode` as `""` when every attempt collides; a non-`ErrRecordNotFound`
lookup error aborts wrapped as a database error. -/
def createLinkAttempts (gen : Nat → String) (s : LinkStore) :
    Nat → Nat → Except GoError String
  | _, 0 => .ok ""
  | i, n + 1 =>
    match repoGetLinkByShortCode s (gen i) with
    | .error e =>
      if errorsIs e .gormErrRecordNotFound then .ok (gen i)
      else .error (.wrapped "database error checking short code uniqueness" e)
    | .ok _ => createLinkAttempts gen s (i + 1) n

/-- `LinkService.CreateLink(longURL)`.  `gen i` is the code produced by
`GenerateShortCode(6)` on attempt `i`; `now` is `time.Now()`.  Returns the
service result together with the resulting store (unchanged on every error
path, since the insert only happens after a unique code is found). -/
def CreateLink (gen : Nat → String) (s : LinkStore) (now : Nat)
    (longURL : String) : Except GoError Link × LinkStore :=
  match createLinkAttempts gen s 0 maxRetries with
  | .error e => (.error e, s)
  | .ok shortCode =>
    if shortCode = "" then
      (.error (.newError
        "failed to generate unique short code after maximum retries"), s)
    else
      match repoCreateLink s
          { id := 0, short_code := shortCode, long_url := longURL,
            created_at := now } with
      | .error e => (.error (.wrapped "failed to create link" e), s)
      | .ok (link, s') => (.ok link, s')

/-- `LinkService.GetLinkByShortCode`: passes the repository result (and its
error, `gorm.ErrRecordNotFound` on a miss) through unchanged. -/
def GetLinkByShortCode (s : LinkStore) (shortCode : String) :
    Except GoError Link :=
  match repoGetLinkByShortCode s shortCode with
  | .error e => .error e
  | .ok link => .ok link

/-- The error classification in `handleSingleURL`
(`internal/api/handlers.go`): `errors.Is(err, ErrShortCodeGenerationFailed)`
maps to 503, any other creation error to 500, success to 201. -/
def singleURLStatus : Except GoError Link → Nat
  | .ok _ => 201
  | .error e => if errorsIs e .errShortCodeGenerationFailed then 503 else 500

/-- `CreateLinkRequest`: body with optional `long_url` and `long_urls`. -/
structure CreateLinkRequest where
  long_url : String
  long_urls : List String
deriving DecidableEq, Repr

/-- `CreateShortLinkHandler`'s collection of URLs to process: the single
`long_url` (when non-empty) followed by all of `long_urls`. -/
def urlsToProcess (req : CreateLinkRequest) : List String :=
  (if req.long_url ≠ "" then [req.long_url] else []) ++ req.long_urls

/-- `CreateLinkResponse`: one element of the batch `results` array. -/
structure CreateLinkResponse where
  short_code : String
  long_url : String
  full_short_url : String
  success : Bool
  errMsg : String
deriving DecidableEq, Repr

/-- The per-URL body of the loop in `handleMultipleURLs`. -/
def resultOfOutcome (longURL : String) : Except GoError Link →
    CreateLinkResponse
  | .error e =>
    { short_code := "", long_url := longURL, full_short_url := "",
      success := false,
      errMsg := if errorsIs e .errShortCodeGenerationFailed then
          "Unable to generate unique short code"
        else "Failed to create short link" }
  | .ok link =>
    { short_code := link.short_code, long_url := longURL,
      full_short_url := "http://localhost:8080/" ++ link.short_code,
      success := true, errMsg := "" }

/-- The loop of `handleMultipleURLs`: one `CreateLink` call per URL in
submission order (the database state `σ` threads through the calls),
accumulating the results array and the successful/failed counters. -/
def processURLs {σ : Type} (create : σ → String → Except GoError Link × σ) :
    σ → List String → List CreateLinkResponse × Nat × Nat × σ
  | s, [] => ([], 0, 0, s)
  | s, url :: rest =>
    let (r, s') := create s url
    let res := resultOfOutcome url r
    let (results, succ, fail, s'') := processURLs create s' rest
    (res :: results,
     (if res.success then succ + 1 else succ),
     (if res.success then fail else fail + 1),
     s'')

/-- The status-code selection at the end of `handleMultipleURLs`:
201 when nothing failed, 400 when nothing succeeded, 207 otherwise. -/
def multiStatusCode (successful failed : Nat) : Nat :=
  if failed = 0 then 201 else if successful = 0 then 400 else 207

/-- The result of `CreateShortLinkHandler`: either the single-URL response
(status only), the batch response, or 400 for an empty request. -/
inductive HandlerResult where
  | single (status : Nat)
  | multi (results : List CreateLinkResponse) (total successful failed : Nat)
      (status : Nat)
  | badRequest
deriving DecidableEq, Repr

/-- `CreateShortLinkHandler`: routes to `handleMultipleURLs` when more than
one URL was collected, to `handleSingleURL` for exactly one, and rejects an
empty request with 400. -/
def CreateShortLinkHandler {σ : Type}
    (create : σ → String → Except GoError Link × σ) (s : σ)
    (req : CreateLinkRequest) : HandlerResult × σ :=
  match urlsToProcess req with
  | [] => (.badRequest, s)
  | [url] =>
    let (r, s') := create s url
    (.single (singleURLStatus r), s')
  | urls =>
    let (results, succ, fail, s') := processURLs create s urls
    (.multi results urls.length succ fail (multiStatusCode succ fail), s')

/-- The buffered `ClickEventsChannel`: a fixed capacity and the events
currently buffered (FIFO). -/
structure ClickQueue where
  capacity : Nat
  buffer : List ClickEvent
deriving DecidableEq, Repr

/-- The non-blocking `select { case ch <- ev: ... default: ... }` send in
`RedirectHandler`: append when a buffer slot is free, otherwise drop the
event and leave the queue unchanged.  The boolean reports whether the event
was enqueued; the caller never receives an error and never waits. -/
def trySend (q : ClickQueue) (e : ClickEvent) : ClickQueue × Bool :=
  if q.buffer.length < q.capacity then
    ({ q with buffer := q.buffer ++ [e] }, true)
  else (q, false)

/-- The tail of `RedirectHandler` after a successful lookup: enqueue the
click event best-effort, then issue the 302 redirect to the long URL
unconditionally. -/
def RedirectHandler (q : ClickQueue) (e : ClickEvent) (longURL : String) :
    ClickQueue × (Nat × String) :=
  ((trySend q e).1, (302, longURL))

/-- A sequence of producer enqueues (each one the `trySend` above). -/
def enqueueAll (q : ClickQueue) (es : List ClickEvent) : ClickQueue :=
  es.foldl (fun q' e => (trySend q' e).1) q

/-- The conversion in `clickWorker`: a dequeued `ClickEvent` becomes a
durable `Click` with the same four fields. -/
def clickOfEvent (e : ClickEvent) : Click :=
  { link_id := e.link_id, timestamp := e.timestamp,
    user_agent := e.user_agent, ip_address := e.ip_address }

/-- The clicks persisted by worker `w` when the queued events `evts` are
consumed under schedule `sched` (`sched i` names the worker that dequeues
the event at queue position `i`): each worker persists its own events in
queue order, every persist succeeding. -/
def workerPersists (sched : Nat → Nat) (w : Nat) (evts : List ClickEvent) :
    List Click :=
  (evts.enum.filter (fun p => sched p.1 == w)).map (fun p => clickOfEvent p.2)

/-- Everything persisted by the pool of `workerCount` workers
(`StartClickWorkers` spawns `workerCount` copies of `clickWorker` on the
same channel). -/
def drainAll (workerCount : Nat) (sched : Nat → Nat)
    (evts : List ClickEvent) : List Click :=
  (List.range workerCount).flatMap (fun w => workerPersists sched w evts)

/-- What one blocked `for event := range ch` receive observes. -/
inductive WorkerObs where
  | consumed (e : ClickEvent)
  | blocked
  | exited
deriving DecidableEq, Repr

/-- The receive at the top of `clickWorker`'s `for event := range ch` loop:
take the first buffered event when one exists; on an empty closed channel
the range loop ends and the goroutine exits; on an empty open channel the
worker blocks. -/
def workerStep : List ClickEvent → Bool → WorkerObs
  | e :: _, _ => .consumed e
  | [], true => .exited
  | [], false => .blocked

/-- The shutdown-relevant actions a `RunServerCmd` statement can take. -/
inductive ShutdownAction where
  | logStopping
  | stopHTTPServer
  | closeClickChannel
  | sleepSeconds (n : Nat)
  | logStopped
deriving DecidableEq, Repr

/-- The statements `RunServerCmd` executes after `<-quit` receives the
shutdown signal (`cmd/server/server.go`): two log lines, a fixed 5-second
sleep, a final log line — the command then returns and the process exits.
No statement closes `ClickEventsChannel` and none stops the HTTP server. -/
def shutdownSequence : List ShutdownAction :=
  [.logStopping, .sleepSeconds 5, .logStopped]

/-- Lookup in the monitor's `knownStates` map (`map[uint]bool`). -/
def lookupState (m : List (Nat × Bool)) (id : Nat) : Option Bool :=
  match m.find? (fun p => p.1 == id) with
  | some p => some p.2
  | none => none

/-- `m.knownStates[link.ID] = currentState`: update or insert. -/
def setState (m : List (Nat × Bool)) (id : Nat) (v : Bool) :
    List (Nat × Bool) :=
  if m.any (fun p => p.1 == id) then
    m.map (fun p => if p.1 == id then (id, v) else p)
  else m ++ [(id, v)]

/-- The per-link body of `checkUrls`: read the previous state and whether
the link was seen before, store the current state, then log — the initial
state line (no change notification) on a first observation, a single
`[NOTIFICATION]` line exactly when the state changed, nothing otherwise.
Returns the updated map and the number of change notifications logged. -/
def checkOne (m : List (Nat × Bool)) (id : Nat) (currentState : Bool) :
    List (Nat × Bool) × Nat :=
  let previous := lookupState m id
  let m' := setState m id currentState
  match previous with
  | none => (m', 0)
  | some previousState => (m', if currentState ≠ previousState then 1 else 0)

/-- One tick of `checkUrls` over all fetched links: `probes` pairs each
link id with its probe result (`isUrlAccessible`), visited in order. -/
def checkUrls (m : List (Nat × Bool)) (probes : List (Nat × Bool)) :
    List (Nat × Bool) × Nat :=
  probes.foldl (fun (acc : List (Nat × Bool) × Nat) p =>
    let (m', n) := checkOne acc.1 p.1 p.2
    (m', acc.2 + n)) (m, 0)

----- Helper lemmas -----

theorem repoGet_error_iff (s : LinkStore) (code : String) (e : GoError) :
    repoGetLinkByShortCode s code = .error e ↔
      s.links.find? (fun l => l.short_code == code) = none ∧
        e = .gormErrRecordNotFound := by
  unfold repoGetLinkByShortCode
  cases h : s.links.find? (fun l => l.short_code == code) <;>
    simp [h, eq_comm]

theorem repoGet_ok_iff (s : LinkStore) (code : String) (l : Link) :
    repoGetLinkByShortCode s code = .ok l ↔
      s.links.find? (fun l' => l'.short_code == code) = some l := by
  unfold repoGetLinkByShortCode
  cases h : s.links.find? (fun l' => l'.short_code == code) <;> simp [h]

theorem createLinkAttempts_ok (gen : Nat → String) (s : LinkStore) :
    ∀ (n i : Nat) (c : String), createLinkAttempts gen s i n = .ok c →
      c ≠ "" →
      ∃ j, i ≤ j ∧ j < i + n ∧ c = gen j ∧
        repoGetLinkByShortCode s (gen j) = .error .gormErrRecordNotFound := by
  intro n
  induction n with
  | zero =>
    intro i c hc hne
    simp [createLinkAttempts] at hc
    exact absurd hc.symm hne
  | succ n ih =>
    intro i c hc hne
    rw [createLinkAttempts] at hc
    cases h : repoGetLinkByShortCode s (gen i) with
    | error e =>
      have he := ((repoGet_error_iff s (gen i) e).mp h).2
      subst he
      rw [h] at hc
      simp [errorsIs] at hc
      exact ⟨i, le_refl i, by omega, hc.symm, h⟩
    | ok l =>
      rw [h] at hc
      obtain ⟨j, hj1, hj2, hj3, hj4⟩ := ih (i + 1) c hc hne
      exact ⟨j, by omega, by omega, hj3, hj4⟩

theorem createLinkAttempts_gen_congr (gen gen' : Nat → String)
    (s : LinkStore) : ∀ (n i : Nat),
    (∀ j, i ≤ j → j < i + n → gen j = gen' j) →
    createLinkAttempts gen s i n = createLinkAttempts gen' s i n := by
  intro n
  induction n with
  | zero => intro i _; simp [createLinkAttempts]
  | succ n ih =>
    intro i hgen
    have hi : gen i = gen' i := hgen i (le_refl i) (by omega)
    rw [createLinkAttempts, createLinkAttempts, hi]
    cases h : repoGetLinkByShortCode s (gen' i) with
    | error e => rfl
    | ok l => exact ih (i + 1) fun j h1 h2 => hgen j (by omega) (by omega)

theorem CreateLink_ok_spec (gen : Nat → String) (s : LinkStore) (now : Nat)
    (longURL : String) (link : Link) (s₂ : LinkStore)
    (h : CreateLink gen s now longURL = (.ok link, s₂)) :
    link.long_url = longURL ∧ link.created_at = now ∧
    link.short_code ≠ "" ∧ (∃ j < maxRetries, link.short_code = gen j) ∧
    s.links.find? (fun l => l.short_code == link.short_code) = none ∧
    s₂.links = s.links ++ [link] := by
  unfold CreateLink at h
  cases hatt : createLinkAttempts gen s 0 maxRetries with
  | error e => rw [hatt] at h; simp at h
  | ok c =>
    rw [hatt] at h
    by_cases hc : c = ""
    · simp [hc] at h
    · simp only [if_neg hc] at h
      unfold repoCreateLink at h
      cases hany : s.links.any (fun l => l.short_code == c) with
      | true => simp [hany] at h
      | false =>
        simp only [hany, Bool.false_eq_true, if_neg, reduceCtorEq,
          not_false_eq_true] at h
        obtain ⟨hlink, hs₂⟩ := Prod.mk.injEq .. ▸ h
        have hlink' := hlink
        simp only [Except.ok.injEq] at hlink'
        subst hlink'
        obtain ⟨j, _, hj2, hj3, _⟩ := createLinkAttempts_ok gen s maxRetries 0 c hatt hc
        refine ⟨rfl, rfl, hc, ⟨j, by omega, hj3⟩, ?_, ?_⟩
        · exact List.find?_eq_none.mpr fun x hx =>
            by simpa using List.any_eq_false.mp hany x hx
        · rw [← hs₂]

theorem clickOfEvent_inj {a b : ClickEvent}
    (h : clickOfEvent a = clickOfEvent b) : a = b := by
  cases a; cases b
  simpa [clickOfEvent] using h

theorem drainAll_mem {c : Click} {W : Nat} {sched : Nat → Nat}
    {evts : List ClickEvent} (h : c ∈ drainAll W sched evts) :
    ∃ ev ∈ evts, c = clickOfEvent ev := by
  simp only [drainAll, workerPersists, List.mem_flatMap, List.mem_map,
    List.mem_filter] at h
  obtain ⟨w, _, p, ⟨hp, _⟩, rfl⟩ := h
  refine ⟨p.2, ?_, rfl⟩
  rw [← List.enum_map_snd evts]
  exact List.mem_map_of_mem Prod.snd hp

----- Demonstration inputs -----

/-- A links table already holding five codes, used to exercise the
exhaustion path of the retry loop. -/
def collidingStore : LinkStore :=
  { links := [
      { id := 1, short_code := "AAAAAA", long_url := "https://a.example",
        created_at := 0 },
      { id := 2, short_code := "BBBBBB", long_url := "https://b.example",
        created_at := 0 },
      { id := 3, short_code := "CCCCCC", long_url := "https://c.example",
        created_at := 0 },
      { id := 4, short_code := "DDDDDD", long_url := "https://d.example",
        created_at := 0 },
      { id := 5, short_code := "EEEEEE", long_url := "https://e.example",
        created_at := 0 }],
    nextId := 6 }

/-- A generator whose first five codes all collide with `collidingStore`. -/
def collidingGen : Nat → String
  | 0 => "AAAAAA"
  | 1 => "BBBBBB"
  | 2 => "CCCCCC"
  | 3 => "DDDDDD"
  | _ => "EEEEEE"

/-- Like `collidingGen` but the fifth attempt produces a fresh code. -/
def fifthFreshGen : Nat → String
  | 0 => "AAAAAA"
  | 1 => "BBBBBB"
  | 2 => "CCCCCC"
  | 3 => "DDDDDD"
  | _ => "FFFFFF"

def emptyStore : LinkStore := { links := [], nextId := 1 }

----- Claims -----

/-- C1: when all 5 generation attempts collide, `CreateLink` fails — but
with a fresh `errors.New` value, not the sentinel
`ErrShortCodeGenerationFailed` from `internal/errors`; `errors.Is` therefore
does not match it, and `handleSingleURL` maps the failure to 500, not to the
503 the spec (and the handler's own dead branch) prescribe. -/
theorem c1_exhaustion_returns_fresh_error_mapped_to_500 :
    (CreateLink collidingGen collidingStore 0 "https://new.example").1 =
      .error (.newError
        "failed to generate unique short code after maximum retries")
    ∧ errorsIs
        (.newError
          "failed to generate unique short code after maximum retries")
        .errShortCodeGenerationFailed = false
    ∧ singleURLStatus
        (CreateLink collidingGen collidingStore 0 "https://new.example").1
        = 500 :=
  ⟨rfl, rfl, rfl⟩

/-- C2: looking up a short code absent from the store does fail, but with
the raw `gorm.ErrRecordNotFound` passed through by the repository and the
service — never the sentinel `ErrShortCodeNotFound` from `internal/errors`,
which `errors.Is` does not match against it. -/
theorem c2_lookup_miss_returns_gorm_not_found_not_sentinel :
    GetLinkByShortCode emptyStore "doesnotexist" =
      .error .gormErrRecordNotFound
    ∧ errorsIs .gormErrRecordNotFound .errShortCodeNotFound = false :=
  ⟨rfl, rfl⟩

/-- C3: the enqueue on the redirect path is a total function returning no
error: with a free slot it appends the event; on a full queue it leaves the
buffer unchanged, the redirect is still issued with 302, and the dropped
event is never consumed by any worker draining the queue. -/
theorem c3_enqueue_nonblocking_drop_on_full (q : ClickQueue)
    (e : ClickEvent) (longURL : String) :
    (q.buffer.length < q.capacity →
      trySend q e = ({ q with buffer := q.buffer ++ [e] }, true))
    ∧ (q.buffer.length = q.capacity →
      trySend q e = (q, false)
      ∧ RedirectHandler q e longURL = (q, (302, longURL))
      ∧ (e ∉ q.buffer → ∀ W sched,
          clickOfEvent e ∉ drainAll W sched (trySend q e).1.buffer)) := by
  constructor
  · intro hlt
    simp [trySend, hlt]
  · intro hfull
    have hsend : trySend q e = (q, false) := by
      simp [trySend, hfull]
    refine ⟨hsend, ?_, ?_⟩
    · simp [RedirectHandler, hsend]
    · intro hnotmem W sched hmem
      rw [hsend] at hmem
      obtain ⟨ev, hev, heq⟩ := drainAll_mem hmem
      exact hnotmem (clickOfEvent_inj heq ▸ hev)

/-- C3 witness: a concrete full queue of capacity 1 drops a second event,
leaves the buffer unchanged and still issues the redirect. -/
theorem c3_witness :
    let q : ClickQueue :=
      { capacity := 1,
        buffer := [{ link_id := 1, timestamp := 0, user_agent := "ua",
                     ip_address := "ip" }] }
    let e : ClickEvent :=
      { link_id := 2, timestamp := 1, user_agent := "ub",
        ip_address := "iq" }
    trySend q e = (q, false) ∧
      RedirectHandler q e "https://x.example" =
        (q, (302, "https://x.example")) :=
  ⟨((c3_enqueue_nonblocking_drop_on_full _ _ "https://x.example").2 rfl).1,
   ((c3_enqueue_nonblocking_drop_on_full _ _ "https://x.example").2 rfl).2.1⟩

/-- C4: `CreateLink` makes at most `maxRetries = 5` generation attempts
(its result only depends on the first five generated codes); collisions on
attempts 1–4 with attempt 5 absent yield success persisting the 5th code;
collisions on all five attempts yield the exhaustion error with the store
unchanged (nothing persisted). -/
theorem c4_bounded_collision_retry (gen : Nat → String) (s : LinkStore)
    (now : Nat) (longURL : String) :
    (∀ gen', (∀ i < maxRetries, gen i = gen' i) →
      CreateLink gen s now longURL = CreateLink gen' s now longURL)
    ∧ ((∀ i < 4, ∃ l, repoGetLinkByShortCode s (gen i) = .ok l) →
       repoGetLinkByShortCode s (gen 4) = .error .gormErrRecordNotFound →
       gen 4 ≠ "" →
       ∃ link s₂, CreateLink gen s now longURL = (.ok link, s₂)
         ∧ link.short_code = gen 4 ∧ link.long_url = longURL
         ∧ s₂.links = s.links ++ [link])
    ∧ ((∀ i < maxRetries, ∃ l, repoGetLinkByShortCode s (gen i) = .ok l) →
       CreateLink gen s now longURL =
         (.error (.newError
           "failed to generate unique short code after maximum retries"),
          s)) := by
  refine ⟨?_, ?_, ?_⟩
  · intro gen' hgen
    unfold CreateLink
    rw [createLinkAttempts_gen_congr gen gen' s maxRetries 0
      fun j h1 h2 => hgen j (by omega)]
  · intro hcoll habs hne
    obtain ⟨l0, h0⟩ := hcoll 0 (by omega)
    obtain ⟨l1, h1⟩ := hcoll 1 (by omega)
    obtain ⟨l2, h2⟩ := hcoll 2 (by omega)
    obtain ⟨l3, h3⟩ := hcoll 3 (by omega)
    have hatt : createLinkAttempts gen s 0 maxRetries = .ok (gen 4) := by
      show createLinkAttempts gen s 0 5 = .ok (gen 4)
      rw [createLinkAttempts, h0, createLinkAttempts, h1,
        createLinkAttempts, h2, createLinkAttempts, h3,
        createLinkAttempts, habs]
      simp [errorsIs]
    have hany : s.links.any (fun l => l.short_code == gen 4) = false := by
      refine List.any_eq_false.mpr fun x hx => ?_
      have hnone := ((repoGet_error_iff s (gen 4) _).mp habs).1
      simpa using List.find?_eq_none.mp hnone x hx
    unfold CreateLink
    rw [hatt]
    simp only [if_neg hne]
    unfold repoCreateLink
    rw [hany]
    exact ⟨_, _, rfl, rfl, rfl, rfl⟩
  · intro hcoll
    obtain ⟨l0, h0⟩ := hcoll 0 (by decide)
    obtain ⟨l1, h1⟩ := hcoll 1 (by decide)
    obtain ⟨l2, h2⟩ := hcoll 2 (by decide)
    obtain ⟨l3, h3⟩ := hcoll 3 (by decide)
    obtain ⟨l4, h4⟩ := hcoll 4 (by decide)
    have hatt : createLinkAttempts gen s 0 maxRetries = .ok "" := by
      show createLinkAttempts gen s 0 5 = .ok ""
      rw [createLinkAttempts, h0, createLinkAttempts, h1,
        createLinkAttempts, h2, createLinkAttempts, h3,
        createLinkAttempts, h4, createLinkAttempts]
    unfold CreateLink
    rw [hatt]
    simp

/-- C4 witness: against `collidingStore`, forcing collisions on attempts
1–4 and a fresh code on attempt 5 succeeds persisting `"FFFFFF"`; forcing
collisions on all five attempts returns the exhaustion error unchanged. -/
theorem c4_witness :
    (∃ link s₂,
      CreateLink fifthFreshGen collidingStore 0 "https://new.example" =
        (.ok link, s₂)
      ∧ link.short_code = "FFFFFF"
      ∧ link.long_url = "https://new.example"
      ∧ s₂.links = collidingStore.links ++ [link])
    ∧ CreateLink collidingGen collidingStore 0 "https://new.example" =
        (.error (.newError
          "failed to generate unique short code after maximum retries"),
         collidingStore) := by
  constructor
  · have h :=
      (c4_bounded_collision_retry fifthFreshGen collidingStore 0
        "https://new.example").2.1
        (by
          intro i hi
          interval_cases i
          · exact ⟨_, rfl⟩
          · exact ⟨_, rfl⟩
          · exact ⟨_, rfl⟩
          · exact ⟨_, rfl⟩)
        rfl (by decide)
    exact h
  · exact (c4_bounded_collision_retry collidingGen collidingStore 0
      "https://new.example").2.2
      (by
        intro i hi
        simp only [maxRetries] at hi
        interval_cases i
        · exact ⟨_, rfl⟩
        · exact ⟨_, rfl⟩
        · exact ⟨_, rfl⟩
        · exact ⟨_, rfl⟩
        · exact ⟨_, rfl⟩)

/-- C6: every successful `CreateLink` returns a `short_code` of length
exactly 6 drawn entirely from the 62-symbol alphanumeric `charset`, since
each attempt's code comes from `GenerateShortCode(6)`. -/
theorem c6_short_code_length_and_alphabet (draws : Nat → Nat → Fin 62)
    (gen : Nat → String) (s : LinkStore) (now : Nat) (longURL : String)
    (link : Link) (s₂ : LinkStore)
    (hgen : ∀ i, gen i = GenerateShortCode (draws i) 6)
    (h : CreateLink gen s now longURL = (.ok link, s₂)) :
    link.short_code.length = 6
    ∧ (∀ c ∈ link.short_code.toList,
        c ∈ charsetChars ∧ c.isAlphanum = true)
    ∧ charsetChars.length = 62 := by
  obtain ⟨_, _, _, ⟨j, _, hj⟩, _, _⟩ :=
    CreateLink_ok_spec gen s now longURL link s₂ h
  rw [hj, hgen j]
  refine ⟨GenerateShortCode_length (draws j) 6, ?_, charsetChars_length⟩
  intro c hc
  have hmem := GenerateShortCode_mem_charset (draws j) 6 c hc
  have halpha : ∀ c' ∈ charsetChars, c'.isAlphanum = true := by decide
  exact ⟨hmem, halpha c hmem⟩

/-- C6 witness: a concrete successful creation (all draws 0, empty store)
returns the code `"aaaaaa"` — length 6, all characters alphanumeric. -/
theorem c6_witness :
    ("aaaaaa".length = 6
    ∧ (∀ c ∈ "aaaaaa".toList, c ∈ charsetChars ∧ c.isAlphanum = true)
    ∧ charsetChars.length = 62) :=
  c6_short_code_length_and_alphabet (fun _ _ => (0 : Fin 62))
    (fun _ => GenerateShortCode (fun _ => (0 : Fin 62)) 6) emptyStore 0
    "https://example.com"
    { id := 1, short_code := "aaaaaa", long_url := "https://example.com",
      created_at := 0 }
    { links := [{ id := 1, short_code := "aaaaaa",
                  long_url := "https://example.com", created_at := 0 }],
      nextId := 2 }
    (fun _ => rfl) rfl

/-- C8: round-trip — after a successful `CreateLink`, an immediate
`GetLinkByShortCode` on the returned code succeeds and returns a link with
the same `short_code` and `long_url` (indeed the very link created). -/
theorem c8_create_then_lookup_round_trip (gen : Nat → String)
    (s : LinkStore) (now : Nat) (longURL : String) (link : Link)
    (s₂ : LinkStore) (h : CreateLink gen s now longURL = (.ok link, s₂)) :
    GetLinkByShortCode s₂ link.short_code = .ok link
    ∧ link.long_url = longURL := by
  obtain ⟨hurl, _, _, _, hnone, hs₂⟩ :=
    CreateLink_ok_spec gen s now longURL link s₂ h
  refine ⟨?_, hurl⟩
  unfold GetLinkByShortCode repoGetLinkByShortCode
  rw [hs₂, List.find?_append, hnone]
  simp

/-- C8 witness: the concrete creation of `"aaaaaa"` in an empty store is
immediately found again with identical `short_code` and `long_url`. -/
theorem c8_witness :
    GetLinkByShortCode
      { links := [{ id := 1, short_code := "aaaaaa",
                    long_url := "https://example.com", created_at := 0 }],
        nextId := 2 } "aaaaaa" =
      .ok { id := 1, short_code := "aaaaaa",
            long_url := "https://example.com", created_at := 0 }
    ∧ ({ id := 1, short_code := "aaaaaa",
         long_url := "https://example.com",
         created_at := 0 : Link }).long_url = "https://example.com" :=
  c8_create_then_lookup_round_trip
    (fun _ => GenerateShortCode (fun _ => (0 : Fin 62)) 6) emptyStore 0
    "https://example.com"
    { id := 1, short_code := "aaaaaa", long_url := "https://example.com",
      created_at := 0 }
    { links := [{ id := 1, short_code := "aaaaaa",
                  long_url := "https://example.com", created_at := 0 }],
      nextId := 2 } rfl

theorem find?_map_replace (id : Nat) (v : Bool) :
    ∀ m : List (Nat × Bool), m.any (fun p => p.1 == id) = true →
      (m.map (fun p => if p.1 == id then (id, v) else p)).find?
        (fun p => p.1 == id) = some (id, v) := by
  intro m
  induction m with
  | nil => simp
  | cons x xs ih =>
    intro hany
    by_cases hx : x.1 = id
    · simp [hx]
    · have hx' : (x.1 == id) = false := by simpa using hx
      simp only [List.any_cons, hx', Bool.false_or] at hany
      simpa [List.map_cons, hx', List.find?] using ih hany

theorem lookupState_setState (m : List (Nat × Bool)) (id : Nat) (v : Bool) :
    lookupState (setState m id v) id = some v := by
  unfold lookupState setState
  cases hany : m.any (fun p => p.1 == id) with
  | true => rw [if_pos rfl, find?_map_replace id v m hany]
  | false =>
    have hnone : m.find? (fun p => p.1 == id) = none :=
      List.find?_eq_none.mpr fun x hx => by
        simpa using List.any_eq_false.mp hany x hx
    rw [if_neg (by simp), List.find?_append, hnone]
    simp

/-- C9: the per-tick step of the health monitor over `knownStates` — a
first-ever observation records the state and logs no change notification; a
subsequent observation logs exactly one change notification if and only if
the probed state differs from the stored previous state; the map entry is
updated to the current state on every probe.  In particular a
success-to-failure transition across two consecutive single-link ticks
yields exactly one notification. -/
theorem c9_monitor_notifies_exactly_on_change (m : List (Nat × Bool))
    (id : Nat) (currentState : Bool) :
    (lookupState m id = none → (checkOne m id currentState).2 = 0)
    ∧ (∀ p, lookupState m id = some p →
        (((checkOne m id currentState).2 = 1 ↔ currentState ≠ p)
        ∧ ((checkOne m id currentState).2 = 0 ↔ currentState = p)))
    ∧ lookupState (checkOne m id currentState).1 id = some currentState
    ∧ (lookupState m id = none →
        (checkUrls m [(id, true)]).2 = 0
        ∧ (checkUrls (checkUrls m [(id, true)]).1 [(id, false)]).2 = 1) := by
  refine ⟨?_, ?_, ?_, ?_⟩
  · intro hnone
    simp [checkOne, hnone]
  · intro p hp
    constructor
    · constructor
      · intro h1
        simp only [checkOne, hp] at h1
        intro heq
        simp [heq] at h1
      · intro hne
        simp [checkOne, hp, hne]
    · constructor
      · intro h0
        simp only [checkOne, hp] at h0
        by_contra hne
        simp [hne] at h0
      · intro heq
        simp [checkOne, hp, heq]
  · simp only [checkOne]
    cases hprev : lookupState m id <;>
      simpa using lookupState_setState m id currentState
  · intro hnone
    have h1 : checkUrls m [(id, true)] = (setState m id true, 0) := by
      simp [checkUrls, checkOne, hnone]
    have h2 : lookupState (setState m id true) id = some true :=
      lookupState_setState m id true
    refine ⟨by rw [h1], ?_⟩
    rw [h1]
    simp [checkUrls, checkOne, h2]

/-- C9 witness: concrete two ticks for link id 1 — the first observation
(accessible) logs no notification, the second (inaccessible) logs exactly
one, and the map ends holding the current state. -/
theorem c9_witness :
    (checkUrls [] [(1, true)]).2 = 0
    ∧ (checkUrls (checkUrls [] [(1, true)]).1 [(1, false)]).2 = 1 :=
  (c9_monitor_notifies_exactly_on_change [] 1 true).2.2.2 rfl

theorem resultOfOutcome_long_url (url : String)
    (r : Except GoError Link) : (resultOfOutcome url r).long_url = url := by
  cases r <;> rfl

theorem processURLs_cons {σ : Type}
    (create : σ → String → Except GoError Link × σ) (s : σ) (url : String)
    (rest : List String) :
    processURLs create s (url :: rest) =
      (resultOfOutcome url (create s url).1 ::
        (processURLs create (create s url).2 rest).1,
       (if (resultOfOutcome url (create s url).1).success then
          (processURLs create (create s url).2 rest).2.1 + 1
        else (processURLs create (create s url).2 rest).2.1),
       (if (resultOfOutcome url (create s url).1).success then
          (processURLs create (create s url).2 rest).2.2.1
        else (processURLs create (create s url).2 rest).2.2.1 + 1),
       (processURLs create (create s url).2 rest).2.2.2) := rfl

theorem processURLs_spec {σ : Type}
    (create : σ → String → Except GoError Link × σ) :
    ∀ (urls : List String) (s : σ),
      (processURLs create s urls).1.length = urls.length
      ∧ (processURLs create s urls).1.map (·.long_url) = urls
      ∧ (processURLs create s urls).2.1 + (processURLs create s urls).2.2.1
          = urls.length
      ∧ (processURLs create s urls).2.2.2 =
          urls.foldl (fun s' u => (create s' u).2) s := by
  intro urls
  induction urls with
  | nil => intro s; simp [processURLs]
  | cons url rest ih =>
    intro s
    obtain ⟨ih1, ih2, ih3, ih4⟩ := ih (create s url).2
    rw [processURLs_cons]
    refine ⟨?_, ?_, ?_, ?_⟩ <;>
      simp only [List.length_cons, List.map_cons, List.foldl_cons]
    · rw [ih1]
    · rw [resultOfOutcome_long_url, ih2]
    · cases hs : (resultOfOutcome url (create s url).1).success <;>
        simp only [hs, if_pos, if_neg, Bool.false_eq_true, ite_true,
          ite_false] <;> omega
    · exact ih4

/-- C10: for a request collecting more than one URL, the handler processes
every URL with one `CreateLink` call each, threading the store through the
calls in submission order; the response holds one result per URL in order,
the summary satisfies `total = k` and `successful + failed = k`, and the
status code is 201 when nothing failed, 400 when nothing succeeded, and 207
otherwise. -/
theorem c10_batch_endpoint_results_and_status {σ : Type}
    (create : σ → String → Except GoError Link × σ) (s : σ)
    (req : CreateLinkRequest) (hk : 1 < (urlsToProcess req).length) :
    ∃ results succ fail s',
      CreateShortLinkHandler create s req =
        (.multi results (urlsToProcess req).length succ fail
          (multiStatusCode succ fail), s')
      ∧ results.length = (urlsToProcess req).length
      ∧ results.map (·.long_url) = urlsToProcess req
      ∧ succ + fail = (urlsToProcess req).length
      ∧ s' = (urlsToProcess req).foldl (fun s'' u => (create s'' u).2) s
      ∧ (fail = 0 → multiStatusCode succ fail = 201)
      ∧ (fail ≠ 0 → succ = 0 → multiStatusCode succ fail = 400)
      ∧ (fail ≠ 0 → succ ≠ 0 → multiStatusCode succ fail = 207) := by
  obtain ⟨h1, h2, h3, h4⟩ := processURLs_spec create (urlsToProcess req) s
  refine ⟨(processURLs create s (urlsToProcess req)).1,
    (processURLs create s (urlsToProcess req)).2.1,
    (processURLs create s (urlsToProcess req)).2.2.1,
    (processURLs create s (urlsToProcess req)).2.2.2,
    ?_, h1, h2, h3, h4.symm ▸ rfl, ?_, ?_, ?_⟩
  · unfold CreateShortLinkHandler
    cases hu : urlsToProcess req with
    | nil => rw [hu] at hk; simp at hk
    | cons u1 tail =>
      cases tail with
      | nil => rw [hu] at hk; simp at hk
      | cons u2 rest => simp only [hu]
  · intro hf; simp [multiStatusCode, hf]
  · intro hf hs; simp [multiStatusCode, hf, hs]
  · intro hf hs; simp [multiStatusCode, hf, hs]

/-- C10 witness: a concrete batch request with two URLs against an empty
store, using the service `CreateLink` with a fixed generator. -/
theorem c10_witness :
    ∃ results succ fail s',
      CreateShortLinkHandler
        (fun st url =>
          CreateLink (fun _ => GenerateShortCode (fun _ => (0 : Fin 62)) 6)
            st 0 url) emptyStore
        { long_url := "", long_urls := ["https://a.example",
            "https://b.example"] } =
        (.multi results 2 succ fail (multiStatusCode succ fail), s')
      ∧ results.length = 2
      ∧ succ + fail = 2 := by
  obtain ⟨results, succ, fail, s', h, hlen, _, hsum, _⟩ :=
    c10_batch_endpoint_results_and_status
      (fun st url =>
        CreateLink (fun _ => GenerateShortCode (fun _ => (0 : Fin 62)) 6)
          st 0 url) emptyStore
      { long_url := "", long_urls := ["https://a.example",
          "https://b.example"] } (by decide)
  exact ⟨results, succ, fail, s', h, hlen, hsum⟩

/-- C5: the `for event := range ch` loop makes a worker exit exactly when
the channel is closed and drained (first conjunct, which holds of
`clickWorker`) — but the post-signal statements of `RunServerCmd` never
close `ClickEventsChannel` and never stop the HTTP server producers: the
shutdown merely sleeps 5 seconds and returns, so no worker ever observes a
closed queue. -/
theorem c5_workers_exit_on_close_but_shutdown_never_closes :
    (∀ (buffer : List ClickEvent) (closed : Bool),
      workerStep buffer closed = .exited ↔ closed = true ∧ buffer = [])
    ∧ shutdownSequence.contains .closeClickChannel = false
    ∧ shutdownSequence.contains .stopHTTPServer = false := by
  refine ⟨?_, rfl, rfl⟩
  intro buffer closed
  cases buffer with
  | nil => cases closed <;> simp [workerStep]
  | cons e rest => cases closed <;> simp [workerStep]

theorem flatMap_congr_mem {α β : Type} :
    ∀ (ws : List α) (g h : α → List β), (∀ w ∈ ws, g w = h w) →
      ws.flatMap g = ws.flatMap h := by
  intro ws
  induction ws with
  | nil => intro g h _; rfl
  | cons w rest ih =>
    intro g h hgh
    simp only [List.flatMap_cons]
    rw [hgh w (List.mem_cons_self w rest),
      ih g h fun w' hw' => hgh w' (List.mem_cons_of_mem w hw')]

theorem flatMap_filter_perm {α : Type} (f : α → Nat) :
    ∀ (W : Nat) (l : List α), (∀ x ∈ l, f x < W) →
      ((List.range W).flatMap fun w => l.filter fun x => f x == w).Perm
        l := by
  intro W
  induction W with
  | zero =>
    intro l hl
    have hnil : l = [] := List.eq_nil_iff_forall_not_mem.mpr
      fun x hx => absurd (hl x hx) (by omega)
    subst hnil
    simp
  | succ W ih =>
    intro l hl
    rw [List.range_succ, List.flatMap_append, List.flatMap_singleton]
    have hstep : ((List.range W).flatMap fun w => l.filter fun x =>
        f x == w) =
        ((List.range W).flatMap fun w =>
          (l.filter fun x => !(f x == W)).filter fun x => f x == w) := by
      refine flatMap_congr_mem _ _ _ fun w hw => ?_
      have hwW : w < W := List.mem_range.mp hw
      rw [List.filter_filter]
      refine (List.filter_congr fun x _ => ?_).symm
      cases hfx : f x == w with
      | true =>
        have : f x = w := by simpa using hfx
        simp [this, hfx, Nat.ne_of_lt hwW]
      | false => simp [hfx]
    rw [hstep]
    have hl' : ∀ x ∈ (l.filter fun x => !(f x == W)), f x < W := by
      intro x hx
      obtain ⟨hxl, hxf⟩ := List.mem_filter.mp hx
      have hne : f x ≠ W := by simpa using hxf
      have := hl x hxl
      omega
    exact (List.Perm.append_right _ (ih _ hl')).trans
      (List.perm_append_comm.trans (List.filter_append_perm _ l))

theorem drainAll_perm (W : Nat) (sched : Nat → Nat)
    (evts : List ClickEvent) (hs : ∀ i, sched i < W) :
    (drainAll W sched evts).Perm (evts.map clickOfEvent) := by
  unfold drainAll workerPersists
  have h1 : ((List.range W).flatMap fun w =>
      (evts.enum.filter fun p => sched p.1 == w).map fun p =>
        clickOfEvent p.2) =
      ((List.range W).flatMap fun w =>
        evts.enum.filter fun p => sched p.1 == w).map fun p =>
          clickOfEvent p.2 :=
    (List.map_flatMap _ _ _).symm
  rw [h1]
  have h2 := (flatMap_filter_perm (fun p => sched p.1) W evts.enum
    fun x _ => hs x.1).map fun p => clickOfEvent p.2
  refine h2.trans ?_
  have h3 : (evts.enum.map fun p => clickOfEvent p.2) =
      (evts.enum.map Prod.snd).map clickOfEvent := by
    rw [List.map_map]; rfl
  rw [h3, List.enum_map_snd]

theorem enqueueAll_below_capacity :
    ∀ (es : List ClickEvent) (q : ClickQueue),
      q.buffer.length + es.length ≤ q.capacity →
      (enqueueAll q es).buffer = q.buffer ++ es := by
  intro es
  induction es with
  | nil => intro q _; simp [enqueueAll]
  | cons e rest ih =>
    intro q h
    have hlt : q.buffer.length < q.capacity := by
      simp only [List.length_cons] at h; omega
    have hsend : trySend q e = ({ q with buffer := q.buffer ++ [e] },
        true) := by simp [trySend, hlt]
    have hstep : enqueueAll q (e :: rest) =
        enqueueAll { q with buffer := q.buffer ++ [e] } rest := by
      unfold enqueueAll
      rw [List.foldl_cons, hsend]
    rw [hstep, ih { q with buffer := q.buffer ++ [e] }
      (by simp only [List.length_append, List.length_cons,
        List.length_nil] at h ⊢; omega)]
    simp

/-- C7: with the queue below capacity throughout, every submitted event is
enqueued (none dropped); draining the queue with a pool of `W` workers
under any schedule persists, with every persist succeeding, a permutation
of the queued events converted to `Click`s with identical fields — so each
of the `N` new events is persisted, each queue position being consumed by
exactly one worker, with no ordering guarantee. -/
theorem c7_below_capacity_all_events_persisted (q : ClickQueue)
    (es : List ClickEvent) (W : Nat) (sched : Nat → Nat)
    (hcap : q.buffer.length + es.length ≤ q.capacity)
    (hsched : ∀ i, sched i < W) :
    (enqueueAll q es).buffer = q.buffer ++ es
    ∧ (drainAll W sched (enqueueAll q es).buffer).Perm
        ((q.buffer ++ es).map clickOfEvent)
    ∧ (∀ e ∈ es, clickOfEvent e ∈
        drainAll W sched (enqueueAll q es).buffer)
    ∧ (∀ i, ∃! w, sched i = w ∧ w < W) := by
  have henq := enqueueAll_below_capacity es q hcap
  have hperm : (drainAll W sched (enqueueAll q es).buffer).Perm
      ((q.buffer ++ es).map clickOfEvent) := by
    rw [henq]; exact drainAll_perm W sched (q.buffer ++ es) hsched
  refine ⟨henq, hperm, ?_, ?_⟩
  · intro e he
    have hmem : clickOfEvent e ∈ (q.buffer ++ es).map clickOfEvent :=
      List.mem_map_of_mem clickOfEvent (List.mem_append_right _ he)
    exact hperm.mem_iff.mpr hmem
  · intro i
    exact ⟨sched i, ⟨rfl, hsched i⟩, fun w hw => hw.1.symm⟩

/-- C7 witness: two concrete events enqueued into an empty queue of
capacity 2 are both enqueued, and a 2-worker drain under the round-robin
schedule persists exactly their two converted clicks. -/
theorem c7_witness :
    (enqueueAll { capacity := 2, buffer := [] }
      [{ link_id := 1, timestamp := 0, user_agent := "ua",
         ip_address := "ip1" },
       { link_id := 2, timestamp := 1, user_agent := "ub",
         ip_address := "ip2" }]).buffer =
      [{ link_id := 1, timestamp := 0, user_agent := "ua",
         ip_address := "ip1" },
       { link_id := 2, timestamp := 1, user_agent := "ub",
         ip_address := "ip2" }]
    ∧ (drainAll 2 (fun i => i % 2)
        (enqueueAll { capacity := 2, buffer := [] }
          [{ link_id := 1, timestamp := 0, user_agent := "ua",
             ip_address := "ip1" },
           { link_id := 2, timestamp := 1, user_agent := "ub",
             ip_address := "ip2" }]).buffer).Perm
        ([{ link_id := 1, timestamp := 0, user_agent := "ua",
            ip_address := "ip1" },
          { link_id := 2, timestamp := 1, user_agent := "ub",
            ip_address := "ip2" }].map clickOfEvent) := by
  have h := c7_below_capacity_all_events_persisted
    { capacity := 2, buffer := [] }
    [{ link_id := 1, timestamp := 0, user_agent := "ua",
       ip_address := "ip1" },
     { link_id := 2, timestamp := 1, user_agent := "ub",
       ip_address := "ip2" }] 2 (fun i => i % 2)
    (by decide) (fun i => Nat.mod_lt i (by decide))
  exact ⟨by simpa using h.1, by simpa using h.2.1⟩
